import Mathlib

/-!
Verification of the GABStudy core logic: the spaced-repetition review
scheduler (`computeNextReview`, from `src/logic/reviewScheduler`-style module)
and the session composer (`src/logic/sessionPicker.ts`).

Shallow-embedding conventions:
* JS `number` values that the code uses as integers (stages, milliseconds,
  difficulties, counts, second budgets) are modelled as `Int`/`Nat`.
* ISO-8601 timestamp strings (`answeredAt`, `nextReviewAt`) are modelled as
  `Int` instants; `localeCompare`/`Date` comparison on ISO strings coincides
  with the numeric order on instants.  The JS fallback `?? ""` (the empty
  string, minimal among ISO strings, only reachable on malformed inputs) is
  modelled as the default value `0`.
* A JS `Map` keyed by question id is modelled as the list of its values with
  first-match lookup (`mapGet`/`mapHas`); the key of an attempt is its
  `problemId` field.
* `Array.prototype.sort` with a consistent comparator `c` is stable and is
  modelled by the (stable) `List.insertionSort` under the total preorder
  `fun a b => c a b ≤ 0`.
* A thrown exception is modelled by `Option`: `computeNextReview` calls
  `toISOString` on an invalid `Date` (hence throws) exactly when the interval
  table lookup produced `undefined`; the model returns `none` there.
* Record fields of `Problem`/`Attempt` that the scheduler and picker logic
  never read (question text, choices, explanation, selectedIndex, ...) are
  omitted from the embedded records.
-/

/-- The closed category type from `src/types/index.ts`. -/
inductive Category where
  | table
  | bar
  | pie
  | composite
deriving DecidableEq

/-- Catalog data per category, from `src/constants/categories.ts`
(presentation fields `label`, `labelShort`, `icon`, `color` omitted). -/
structure CategoryInfo where
  id : Category
  targetTimeSec : Int
deriving DecidableEq

/-- The `CATEGORIES` constant of `src/constants/categories.ts`. -/
def CATEGORIES : List CategoryInfo :=
  [{ id := Category.table, targetTimeSec := 55 },
   { id := Category.bar, targetTimeSec := 45 },
   { id := Category.pie, targetTimeSec := 40 },
   { id := Category.composite, targetTimeSec := 55 }]

/-- `CATEGORY_MAP` (built by `Object.fromEntries` keyed on `id`), as a
lookup into `CATEGORIES`. -/
def CATEGORY_MAP (c : Category) : Option CategoryInfo :=
  CATEGORIES.find? (fun info => info.id == c)

/-- `REVIEW_INTERVALS_DAYS = [1, 3, 7, 14, 30]`. -/
def REVIEW_INTERVALS_DAYS : List Int := [1, 3, 7, 14, 30]

/-- Review queue entry (`ReviewQueueItem` in `src/types/index.ts`);
`nextReviewAt` is an ISO timestamp modelled as an `Int` instant. -/
structure ReviewQueueItem where
  problemId : String
  nextReviewAt : Int
  stage : Int
deriving DecidableEq

/-- JS array indexing `l[i]`: `undefined` (here `none`) for a negative
index or one at/past the length. -/
def jsArrayGet (l : List Int) (i : Int) : Option Int :=
  if 0 ≤ i then l.get? i.toNat else none

/-- `computeNextReview(problemId, isCorrect, currentItem)` from the review
scheduler module.  The call to `new Date()` is the explicit `now` parameter;
`nextReviewAt = now + intervalDays` models `setDate(getDate() + intervalDays)`
at day granularity.  When the interval lookup yields `undefined` (negative
index), `setDate` produces an invalid `Date` and `toISOString()` throws;
that is the `none` result. -/
def computeNextReview (problemId : String) (isCorrect : Bool)
    (currentItem : Option ReviewQueueItem) (now : Int) : Option ReviewQueueItem :=
  let currentStage : Int := (currentItem.map (·.stage)).getD 0
  let newStage : Int :=
    if isCorrect then currentStage + 1 else max (currentStage - 1) 0
  let intervalIndex : Int := min newStage ((REVIEW_INTERVALS_DAYS.length : Int) - 1)
  match jsArrayGet REVIEW_INTERVALS_DAYS intervalIndex with
  | some intervalDays =>
      some { problemId := problemId, nextReviewAt := now + intervalDays, stage := newStage }
  | none => none

/-- Run a sequence of answers to one question through `computeNextReview`,
starting from a given entry state (`none` = no entry yet).  The outer
`Option` is `none` as soon as one call throws; otherwise it carries the final
entry state. -/
def runAnswers (problemId : String) (now : Int) :
    Option ReviewQueueItem → List Bool → Option (Option ReviewQueueItem)
  | cur, [] => some cur
  | cur, b :: rest =>
    match computeNextReview problemId b cur now with
    | some e => runAnswers problemId now (some e) rest
    | none => none

/-- The new stage computed by `computeNextReview`. -/
def nextStage (isCorrect : Bool) (currentItem : Option ReviewQueueItem) : Int :=
  if isCorrect then ((currentItem.map (·.stage)).getD 0) + 1
  else max (((currentItem.map (·.stage)).getD 0) - 1) 0

/-- Catalog entry (`Problem` in `src/types/index.ts`); presentation fields
(`question`, `imageUri`, `choices`, `correctIndex`, `explanation`,
`commonMistakes`, `targetTimeSec`) are never read by the picker logic and are
omitted. -/
structure Problem where
  id : String
  category : Category
  difficulty : Int
deriving DecidableEq

/-- Answer record (`Attempt` in `src/types/index.ts`); `answeredAt` is an ISO
timestamp modelled as an `Int` instant; fields `id`, `selectedIndex` and
`calcHistory` are never read by the picker logic and are omitted. -/
structure Attempt where
  problemId : String
  answeredAt : Int
  isCorrect : Bool
  timeMs : Int
deriving DecidableEq

/-- `latestAttempts.get(id)` on the `Map` of most recent attempts, modelled as
first-match lookup in the list of the map's values. -/
def mapGet (latestAttempts : List Attempt) (id : String) : Option Attempt :=
  latestAttempts.find? (fun a => a.problemId == id)

/-- `latestAttempts.has(id)`. -/
def mapHas (latestAttempts : List Attempt) (id : String) : Bool :=
  (mapGet latestAttempts id).isSome

/-- `estimateSolveSeconds(category)`: `CATEGORY_MAP[category]?.targetTimeSec ?? 50`. -/
def estimateSolveSeconds (category : Category) : Int :=
  ((CATEGORY_MAP category).map (·.targetTimeSec)).getD 50

/-- `targetTimeForCategory(category)`: `CATEGORY_MAP[category]?.targetTimeSec ?? 50`. -/
def targetTimeForCategory (category : Category) : Int :=
  ((CATEGORY_MAP category).map (·.targetTimeSec)).getD 50

/-- The order induced by a JS comparator `(a, b) => key(a) - key(b)`
(ascending by `key`). -/
def ascLE {α : Type} (key : α → Int) (a b : α) : Prop := key a ≤ key b

/-- The order induced by a JS comparator `(a, b) => key(b) - key(a)`
(descending by `key`). -/
def descLE {α : Type} (key : α → Int) (a b : α) : Prop := key b ≤ key a

/-- The order induced by a JS comparator comparing `key1` first (ascending)
and `key2` (ascending) on ties. -/
def lexAscLE {α : Type} (key1 key2 : α → Int) (a b : α) : Prop :=
  key1 a < key1 b ∨ (key1 a = key1 b ∧ key2 a ≤ key2 b)

instance {α : Type} (key : α → Int) : DecidableRel (ascLE key) :=
  fun a b => Int.decLe (key a) (key b)

instance {α : Type} (key : α → Int) : IsTotal α (ascLE key) :=
  ⟨fun a b => le_total (key a) (key b)⟩

instance {α : Type} (key : α → Int) : IsTrans α (ascLE key) :=
  ⟨fun _ _ _ h1 h2 => le_trans h1 h2⟩

instance {α : Type} (key : α → Int) : DecidableRel (descLE key) :=
  fun a b => Int.decLe (key b) (key a)

instance {α : Type} (key : α → Int) : IsTotal α (descLE key) :=
  ⟨fun a b => (le_total (key a) (key b)).symm⟩

instance {α : Type} (key : α → Int) : IsTrans α (descLE key) :=
  ⟨fun _ _ _ h1 h2 => le_trans h2 h1⟩

instance {α : Type} (key1 key2 : α → Int) : DecidableRel (lexAscLE key1 key2) :=
  fun a b => inferInstanceAs
    (Decidable (key1 a < key1 b ∨ (key1 a = key1 b ∧ key2 a ≤ key2 b)))

instance {α : Type} (key1 key2 : α → Int) : IsTotal α (lexAscLE key1 key2) := by
  refine ⟨fun a b => ?_⟩
  rcases lt_trichotomy (key1 a) (key1 b) with h | h | h
  · exact Or.inl (Or.inl h)
  · rcases le_total (key2 a) (key2 b) with h2 | h2
    · exact Or.inl (Or.inr ⟨h, h2⟩)
    · exact Or.inr (Or.inr ⟨h.symm, h2⟩)
  · exact Or.inr (Or.inl h)

instance {α : Type} (key1 key2 : α → Int) : IsTrans α (lexAscLE key1 key2) := by
  refine ⟨fun a b c hab hbc => ?_⟩
  rcases hab with h1 | ⟨h1, h1'⟩ <;> rcases hbc with h2 | ⟨h2, h2'⟩
  · exact Or.inl (lt_trans h1 h2)
  · exact Or.inl (lt_of_lt_of_eq h1 h2)
  · exact Or.inl (lt_of_eq_of_lt h1 h2)
  · exact Or.inr ⟨h1.trans h2, h1'.trans h2'⟩

/-- Membership of a problem in the `dueSet` built from `dueReviews`. -/
def inDueSet (dueReviews : List ReviewQueueItem) (p : Problem) : Bool :=
  dueReviews.any (fun r => r.problemId == p.id)

/-- Sort key of the due pool: `dueReviews.find(r => r.problemId === p.id)?.nextReviewAt ?? ""`
(the `""` fallback, unreachable after the `dueSet` filter, is modelled as 0). -/
def dueKeyOf (dueReviews : List ReviewQueueItem) (p : Problem) : Int :=
  ((dueReviews.find? (fun r => r.problemId == p.id)).map (·.nextReviewAt)).getD 0

/-- `latestAttempts.get(p.id)?.timeMs ?? 0`. -/
def attemptTimeMs (latestAttempts : List Attempt) (p : Problem) : Int :=
  ((mapGet latestAttempts p.id).map (·.timeMs)).getD 0

/-- `latestAttempts.get(p.id)?.answeredAt ?? ""` (the `""` fallback modelled as 0). -/
def attemptAnsweredAt (latestAttempts : List Attempt) (p : Problem) : Int :=
  ((mapGet latestAttempts p.id).map (·.answeredAt)).getD 0

/-- Pool 1 of `pickQuickSession`: due-for-review problems, ascending by the
matching review item's `nextReviewAt`. -/
def duePool (allProblems : List Problem) (dueReviews : List ReviewQueueItem) : List Problem :=
  List.insertionSort (ascLE (dueKeyOf dueReviews))
    (allProblems.filter (fun p => inDueSet dueReviews p))

/-- Pool 2 of `pickQuickSession`: latest attempt correct but over the category
target time, descending by elapsed time. -/
def slowPool (allProblems : List Problem) (latestAttempts : List Attempt) : List Problem :=
  List.insertionSort (descLE (attemptTimeMs latestAttempts))
    (allProblems.filter (fun p =>
      match mapGet latestAttempts p.id with
      | none => false
      | some a => a.isCorrect && decide (targetTimeForCategory p.category * 1000 < a.timeMs)))

/-- Pool 3 of `pickQuickSession`: latest attempt incorrect, descending by
`answeredAt` (most recent first). -/
def wrongRecentPool (allProblems : List Problem) (latestAttempts : List Attempt) : List Problem :=
  List.insertionSort (descLE (attemptAnsweredAt latestAttempts))
    (allProblems.filter (fun p =>
      match mapGet latestAttempts p.id with
      | none => false
      | some a => !a.isCorrect))

/-- Pool 4 of `pickQuickSession`: never attempted, ascending by difficulty. -/
def unseenPool (allProblems : List Problem) (latestAttempts : List Attempt) : List Problem :=
  List.insertionSort (ascLE (fun p => p.difficulty))
    (allProblems.filter (fun p => !(mapHas latestAttempts p.id)))

/-- The selection loop of `pickQuickSession`: walk the concatenated pools,
skip already-picked ids, accumulate the estimated time, and return as soon as
the accumulated estimate reaches `targetSeconds` (the `return picked` inside
the loop exits the whole function, so the walk is a single pass over the
concatenation). -/
def pickLoop (targetSeconds : Int) :
    List Problem → List Problem → List String → Int → List Problem
  | [], picked, _, _ => picked
  | p :: rest, picked, pickedSet, estimatedTime =>
    if p.id ∈ pickedSet then pickLoop targetSeconds rest picked pickedSet estimatedTime
    else
      let picked2 := picked ++ [p]
      let estimatedTime2 := estimatedTime + estimateSolveSeconds p.category
      if targetSeconds ≤ estimatedTime2 then picked2
      else pickLoop targetSeconds rest picked2 (p.id :: pickedSet) estimatedTime2

/-- `pickQuickSession(targetSeconds, allProblems, latestAttempts, dueReviews)`. -/
def pickQuickSession (targetSeconds : Int) (allProblems : List Problem)
    (latestAttempts : List Attempt) (dueReviews : List ReviewQueueItem) : List Problem :=
  pickLoop targetSeconds
    (duePool allProblems dueReviews ++ slowPool allProblems latestAttempts
      ++ wrongRecentPool allProblems latestAttempts ++ unseenPool allProblems latestAttempts)
    [] [] 0

/-- Question A of the spec's concrete quick-session scenario (category
`table`, whose catalog target time is 55 s). -/
def probA : Problem := { id := "A", category := Category.table, difficulty := 2 }

/-- Question B of the scenario (category `bar`, target 45 s). -/
def probB : Problem := { id := "B", category := Category.bar, difficulty := 2 }

/-- Question C of the scenario (category `pie`, target 40 s), never attempted. -/
def probC : Problem := { id := "C", category := Category.pie, difficulty := 1 }

/-- The scenario catalog [A, B, C]. -/
def c2Problems : List Problem := [probA, probB, probC]

/-- The scenario attempts: A answered correctly in 80 s (over the 55 s
target), B answered incorrectly, C never answered. -/
def c2Attempts : List Attempt :=
  [{ problemId := "A", answeredAt := 100, isCorrect := true, timeMs := 80000 },
   { problemId := "B", answeredAt := 200, isCorrect := false, timeMs := 30000 }]

/-- `pickSpeedSession(allProblems, latestAttempts, maxCount = 10)`:
standalone filter and sort duplicated from pool 2 of `pickQuickSession`,
then `slice(0, maxCount)`. -/
def pickSpeedSession (allProblems : List Problem) (latestAttempts : List Attempt)
    (maxCount : Nat := 10) : List Problem :=
  (List.insertionSort (descLE (attemptTimeMs latestAttempts))
    (allProblems.filter (fun p =>
      match mapGet latestAttempts p.id with
      | none => false
      | some a => a.isCorrect && decide (targetTimeForCategory p.category * 1000 < a.timeMs)))).take
    maxCount

/-- The candidate filter of `pickReviewSession`:
`dueSet.has(p.id) || (a && !a.isCorrect)`. -/
def reviewCandidate (latestAttempts : List Attempt) (dueReviews : List ReviewQueueItem)
    (p : Problem) : Bool :=
  inDueSet dueReviews p ||
    (match mapGet latestAttempts p.id with
     | some a => !a.isCorrect
     | none => false)

/-- The primary sort key of `pickReviewSession`: 0 for due-for-review
problems, 1 otherwise. -/
def dueRank (dueReviews : List ReviewQueueItem) (p : Problem) : Int :=
  if inDueSet dueReviews p then 0 else 1

/-- `pickReviewSession(allProblems, latestAttempts, dueReviews, maxCount = 10)`:
filter to due-or-wrong candidates, sort due items first then by `answeredAt`
ascending, truncate to `maxCount`. -/
def pickReviewSession (allProblems : List Problem) (latestAttempts : List Attempt)
    (dueReviews : List ReviewQueueItem) (maxCount : Nat := 10) : List Problem :=
  (List.insertionSort (lexAscLE (dueRank dueReviews) (attemptAnsweredAt latestAttempts))
    (allProblems.filter (reviewCandidate latestAttempts dueReviews))).take maxCount

/-- A scored entry `{ problem, score }` of `pickWeaknessTest`.  The JS score
is a float; here `score` carries that float multiplied by 1000 (exact in
`Int`, since the only fractional contribution is `overTime / 1000` with
`overTime` an integer number of milliseconds); the scaling preserves every
comparison the sort makes. -/
structure ScoredProblem where
  problem : Problem
  score : Int
deriving DecidableEq

/-- The scoring step of `pickWeaknessTest`: `score = (incorrect ? 10 : 0) +
(overTime > 0 ? overTime / 1000 : 0)` with `overTime = timeMs −
targetTimeForCategory(category) * 1000`, scaled by 1000 (the `none` branch is
unreachable after the `has` filter; the source uses `get!`). -/
def scoreProblem (latestAttempts : List Attempt) (p : Problem) : ScoredProblem :=
  match mapGet latestAttempts p.id with
  | some a =>
      let base : Int := if a.isCorrect then 0 else 10000
      let overTime : Int := a.timeMs - targetTimeForCategory p.category * 1000
      { problem := p, score := base + (if 0 < overTime then overTime else 0) }
  | none => { problem := p, score := 0 }

/-- `pickWeaknessTest(allProblems, latestAttempts, count = 20)`: score every
attempted question, sort descending by score, truncate, project back to the
problems. -/
def pickWeaknessTest (allProblems : List Problem) (latestAttempts : List Attempt)
    (count : Nat := 20) : List Problem :=
  ((List.insertionSort (descLE (fun s => s.score))
      ((allProblems.filter (fun p => mapHas latestAttempts p.id)).map
        (scoreProblem latestAttempts))).take count).map (·.problem)

/-- The (×1000-scaled) weakness score of a problem. -/
def weaknessScore (latestAttempts : List Attempt) (p : Problem) : Int :=
  (scoreProblem latestAttempts p).score

/-- Attempt map for the C6 witness: A answered incorrectly, B answered
correctly 5 seconds over its 45-second target. -/
def c6Attempts : List Attempt :=
  [{ problemId := "A", answeredAt := 100, isCorrect := false, timeMs := 30000 },
   { problemId := "B", answeredAt := 200, isCorrect := true, timeMs := 50000 }]

/-- Recommendation card type tag. -/
inductive RecType where
  | review
  | speed
  | category_weak
  | drill
deriving DecidableEq

/-- A home-screen recommendation card (`Recommendation` in
`sessionPicker.ts`). -/
structure Recommendation where
  title : String
  reason : String
  type : RecType
  estimatedMinutes : Int
  category : Option Category
deriving DecidableEq

/-- The live due count of `generateRecommendations`:
`dueReviews.filter(r => new Date(r.nextReviewAt) <= new Date()).length` —
entries of the argument re-checked against the current time. -/
def dueCount (dueReviews : List ReviewQueueItem) (now : Int) : Nat :=
  (dueReviews.filter (fun r => decide (r.nextReviewAt ≤ now))).length

/-- `Math.ceil(a / b)` on integers, for positive `b` (Lean's `Int` division
rounds toward −∞, so `-(-a / b)` rounds the quotient up). -/
def mathCeilDiv (a b : Int) : Int := -(-a / b)

/-- `Math.round(a / b)` on naturals, for positive `b` (round half up:
`⌊a/b + 1/2⌋ = (2a + b) / 2b`). -/
def jsRoundDiv (a b : Nat) : Nat := (2 * a + b) / (2 * b)

/-- The review-drill card block of `generateRecommendations`. -/
def reviewCards (dueReviews : List ReviewQueueItem) (now : Int) : List Recommendation :=
  if 0 < dueCount dueReviews now then
    [{ title := s!"復習ドリル {min (dueCount dueReviews now) 5}問",
       reason := s!"{dueCount dueReviews now}問が復習期限です",
       type := RecType.review,
       estimatedMinutes := mathCeilDiv ((dueCount dueReviews now : Int) * 50) 60,
       category := none }]
  else []

/-- `slowCount`: correct-but-over-target questions (same filter as pool 2,
duplicated again in the source). -/
def slowCount (allProblems : List Problem) (latestAttempts : List Attempt) : Nat :=
  (allProblems.filter (fun p =>
    match mapGet latestAttempts p.id with
    | none => false
    | some a => a.isCorrect && decide (targetTimeForCategory p.category * 1000 < a.timeMs))).length

/-- The speed-reinforcement card block of `generateRecommendations`. -/
def speedCards (allProblems : List Problem) (latestAttempts : List Attempt) :
    List Recommendation :=
  if 0 < slowCount allProblems latestAttempts then
    [{ title := s!"スピード強化 {min (slowCount allProblems latestAttempts) 3}問",
       reason := "正解だが目標時間を超過",
       type := RecType.speed,
       estimatedMinutes :=
         mathCeilDiv ((min (slowCount allProblems latestAttempts) 3 : Int) * 45) 60,
       category := none }]
  else []

/-- `Map.set` on the per-category accuracy map: replace in place if the key
exists (keeping iteration order), otherwise append. -/
def mapSet (m : List (Category × Nat × Nat)) (k : Category) (v : Nat × Nat) :
    List (Category × Nat × Nat) :=
  if m.any (fun e => e.1 == k) then m.map (fun e => if e.1 == k then (k, v) else e)
  else m ++ [(k, v)]

/-- The `categoryAccuracy` loop of `generateRecommendations`: walk the latest
attempts (in map iteration order), look the problem up in the catalog, and
bump that category's `(correct, total)` pair. -/
def accumulateCategoryStats (allProblems : List Problem) :
    List Attempt → List (Category × Nat × Nat) → List (Category × Nat × Nat)
  | [], acc => acc
  | a :: rest, acc =>
    match allProblems.find? (fun p => p.id == a.problemId) with
    | none => accumulateCategoryStats allProblems rest acc
    | some problem =>
        let entry := ((acc.find? (fun e => e.1 == problem.category)).map (·.2)).getD (0, 0)
        accumulateCategoryStats allProblems rest
          (mapSet acc problem.category
            (entry.1 + (if a.isCorrect then 1 else 0), entry.2 + 1))

/-- The `worstCategory` fold: skip categories with fewer than 3 attempted
questions; keep the first category of strictly lowest accuracy.  The float
comparison `accuracy < worst.accuracy` (with `accuracy = correct / total`)
is the exact cross-multiplied comparison `correct * total0 < correct0 *
total`, both totals being positive here. -/
def worstCategoryFold :
    List (Category × Nat × Nat) → Option (Category × Nat × Nat) → Option (Category × Nat × Nat)
  | [], acc => acc
  | (c, correct, total) :: rest, acc =>
    if total < 3 then worstCategoryFold rest acc
    else match acc with
      | none => worstCategoryFold rest (some (c, correct, total))
      | some (_c0, correct0, total0) =>
          if correct * total0 < correct0 * total then
            worstCategoryFold rest (some (c, correct, total))
          else worstCategoryFold rest acc

/-- The category-weakness card block of `generateRecommendations`; the float
guard `accuracy < 0.7` is the exact comparison `10 * correct < 7 * total`. -/
def categoryCards (allProblems : List Problem) (latestAttempts : List Attempt) :
    List Recommendation :=
  match worstCategoryFold (accumulateCategoryStats allProblems latestAttempts []) none with
  | some (c, correct, total) =>
      if 10 * correct < 7 * total then
        let catInfo :=
          match c with
          | Category.table => "表"
          | Category.bar => "棒グラフ"
          | Category.pie => "円グラフ"
          | Category.composite => "複合"
        [{ title := s!"{catInfo}カテゴリ弱点 3問",
           reason := s!"{catInfo}の正答率が{jsRoundDiv (correct * 100) total}%",
           type := RecType.category_weak,
           estimatedMinutes := 3,
           category := some c }]
      else []
  | none => []

/-- `generateRecommendations(allProblems, latestAttempts, dueReviews)`; the
three card blocks are pushed in this fixed order.  `now` is the explicit
parameter for the `new Date()` calls. -/
def generateRecommendations (allProblems : List Problem) (latestAttempts : List Attempt)
    (dueReviews : List ReviewQueueItem) (now : Int) : List Recommendation :=
  reviewCards dueReviews now ++ speedCards allProblems latestAttempts
    ++ categoryCards allProblems latestAttempts

lemma computeNextReview_eq (problemId : String) (isCorrect : Bool)
    (currentItem : Option ReviewQueueItem) (now : Int) :
    computeNextReview problemId isCorrect currentItem now =
      (jsArrayGet REVIEW_INTERVALS_DAYS (min (nextStage isCorrect currentItem) 4)).map
        (fun d => { problemId := problemId, nextReviewAt := now + d,
                    stage := nextStage isCorrect currentItem }) := by
  simp only [computeNextReview, nextStage]
  have hlen : ((REVIEW_INTERVALS_DAYS.length : Int) - 1) = 4 := by decide
  rw [hlen]
  rcases jsArrayGet REVIEW_INTERVALS_DAYS
      (min (if isCorrect then ((currentItem.map (·.stage)).getD 0) + 1
            else max (((currentItem.map (·.stage)).getD 0) - 1) 0) 4) with _ | d
  · rfl
  · rfl

lemma computeNextReview_stage (problemId : String) (isCorrect : Bool)
    (currentItem : Option ReviewQueueItem) (now : Int) (r : ReviewQueueItem)
    (h : computeNextReview problemId isCorrect currentItem now = some r) :
    r.stage = if isCorrect then ((currentItem.map (·.stage)).getD 0) + 1
              else max (((currentItem.map (·.stage)).getD 0) - 1) 0 := by
  rw [computeNextReview_eq] at h
  obtain ⟨d, -, hr⟩ := Option.map_eq_some'.mp h
  rw [← hr]
  rfl

lemma computeNextReview_some_of_nonneg (problemId : String) (isCorrect : Bool)
    (currentItem : Option ReviewQueueItem) (now : Int)
    (hst : ∀ e, currentItem = some e → 0 ≤ e.stage) :
    ∃ r, computeNextReview problemId isCorrect currentItem now = some r ∧
      0 ≤ r.stage ∧ r.problemId = problemId := by
  have hcur : 0 ≤ (currentItem.map (·.stage)).getD 0 := by
    cases currentItem with
    | none => simp
    | some e => simpa using hst e rfl
  have hnew : 0 ≤ nextStage isCorrect currentItem := by
    unfold nextStage
    cases isCorrect with
    | false => simp
    | true => simp only [if_true]; omega
  have hidx : (min (nextStage isCorrect currentItem) 4).toNat < REVIEW_INTERVALS_DAYS.length := by
    have h1 : min (nextStage isCorrect currentItem) 4 ≤ 4 := min_le_right _ _
    have h2 : (min (nextStage isCorrect currentItem) 4).toNat ≤ 4 := by omega
    simpa [REVIEW_INTERVALS_DAYS] using Nat.lt_succ_of_le h2
  have hpos : 0 ≤ min (nextStage isCorrect currentItem) 4 := le_min hnew (by omega)
  have hget : jsArrayGet REVIEW_INTERVALS_DAYS (min (nextStage isCorrect currentItem) 4)
      = some (REVIEW_INTERVALS_DAYS.get ⟨(min (nextStage isCorrect currentItem) 4).toNat, hidx⟩) := by
    unfold jsArrayGet
    rw [if_pos hpos, List.get?_eq_get hidx]
  refine ⟨{ problemId := problemId,
            nextReviewAt := now +
              REVIEW_INTERVALS_DAYS.get ⟨(min (nextStage isCorrect currentItem) 4).toNat, hidx⟩,
            stage := nextStage isCorrect currentItem }, ?_, hnew, rfl⟩
  rw [computeNextReview_eq, hget]
  rfl

lemma runAnswers_safe (problemId : String) (now : Int) (answers : List Bool) :
    ∀ cur : Option ReviewQueueItem, (∀ e, cur = some e → 0 ≤ e.stage) →
    ∃ s, runAnswers problemId now cur answers = some s ∧
      ∀ e, s = some e → 0 ≤ e.stage := by
  induction answers with
  | nil => intro cur hcur; exact ⟨cur, rfl, hcur⟩
  | cons b rest ih =>
    intro cur hcur
    obtain ⟨r, hr, hrs, -⟩ := computeNextReview_some_of_nonneg problemId b cur now hcur
    obtain ⟨s, hs, hss⟩ := ih (some r) (by intro e he; cases he; exact hrs)
    refine ⟨s, ?_, hss⟩
    unfold runAnswers
    rw [hr]
    exact hs

/-- C1: every call to `computeNextReview` returns, on success, an entry whose
stage is the current stage plus 1 on a correct answer and
`max (current stage - 1) 0` on an incorrect one, with a missing current entry
treated as stage 0; and along any sequence of answers to one question starting
from no entry, no call throws and the stage is never negative. -/
theorem computeNextReview_stage_walk :
    (∀ (problemId : String) (isCorrect : Bool) (currentItem : Option ReviewQueueItem)
        (now : Int) (r : ReviewQueueItem),
        computeNextReview problemId isCorrect currentItem now = some r →
        r.stage = if isCorrect then ((currentItem.map (·.stage)).getD 0) + 1
                  else max (((currentItem.map (·.stage)).getD 0) - 1) 0)
    ∧ (∀ (problemId : String) (now : Int) (answers : List Bool),
        ∃ s, runAnswers problemId now none answers = some s ∧
          ∀ e, s = some e → 0 ≤ e.stage) := by
  constructor
  · exact computeNextReview_stage
  · intro problemId now answers
    exact runAnswers_safe problemId now answers none (by intro e he; cases he)

/-- Witness for C1 at a concrete input: a first correct answer yields stage 1,
and the three-answer run `[correct, wrong, wrong]` never throws and never goes
negative. -/
theorem computeNextReview_stage_walk_witness :
    ((⟨"q1", 3, 1⟩ : ReviewQueueItem).stage
        = if true then (((none : Option ReviewQueueItem)).map (·.stage)).getD 0 + 1
          else max ((((none : Option ReviewQueueItem)).map (·.stage)).getD 0 - 1) 0)
    ∧ (∃ s, runAnswers "q1" 0 none [true, false, false] = some s ∧
        ∀ e, s = some e → 0 ≤ e.stage) :=
  ⟨computeNextReview_stage_walk.1 "q1" true none 0 ⟨"q1", 3, 1⟩ (by decide),
   computeNextReview_stage_walk.2 "q1" 0 [true, false, false]⟩

/-- C3: whenever `computeNextReview` succeeds with a new stage ≥ 4, the
interval used for `nextReviewAt` is the last table entry, 30 days. -/
theorem computeNextReview_interval_clamp :
    ∀ (problemId : String) (isCorrect : Bool) (currentItem : Option ReviewQueueItem)
      (now : Int) (r : ReviewQueueItem),
      computeNextReview problemId isCorrect currentItem now = some r →
      4 ≤ r.stage → r.nextReviewAt = now + 30 := by
  intro problemId isCorrect currentItem now r h h4
  rw [computeNextReview_eq] at h
  obtain ⟨d, hd, hr⟩ := Option.map_eq_some'.mp h
  have hstage : r.stage = nextStage isCorrect currentItem := by rw [← hr]
  rw [hstage] at h4
  rw [min_eq_right h4] at hd
  have h30 : jsArrayGet REVIEW_INTERVALS_DAYS 4 = some 30 := by decide
  rw [h30] at hd
  cases hd
  rw [← hr]

/-- Witness for C3 at a concrete input: from stage 9, a correct answer gives
stage 10 and a next review 30 days out. -/
theorem computeNextReview_interval_clamp_witness :
    (⟨"q1", 30, 10⟩ : ReviewQueueItem).nextReviewAt = 0 + 30 :=
  computeNextReview_interval_clamp "q1" true (some ⟨"q1", 0, 9⟩) 0 ⟨"q1", 30, 10⟩
    (by decide) (by decide)

/-- C4 counterexample: with a current entry of stage −2 and a correct answer,
the new stage is −1, `Math.min(-1, 4) = -1` is *not* clamped to a valid index,
`REVIEW_INTERVALS_DAYS[-1]` is `undefined`, and `toISOString()` on the
resulting invalid `Date` throws — modelled as `none`; no entry is returned. -/
theorem computeNextReview_negative_stage_throws :
    computeNextReview "q1" true (some ⟨"q1", 0, -2⟩) 0 = none := by decide

/-- C4 (amended): `computeNextReview` always succeeds and returns an entry for
any question id, any boolean, and a current entry that is absent or has a
non-negative stage; only a negative current stage (reached by no real
schedule, whose stages stay ≥ 0) can make the table index negative and throw —
upper out-of-range indices are clamped to the last entry. -/
theorem computeNextReview_total_for_nonneg_stage :
    ∀ (problemId : String) (isCorrect : Bool) (currentItem : Option ReviewQueueItem)
      (now : Int),
      (∀ e, currentItem = some e → 0 ≤ e.stage) →
      ∃ r, computeNextReview problemId isCorrect currentItem now = some r := by
  intro problemId isCorrect currentItem now hst
  obtain ⟨r, hr, -, -⟩ := computeNextReview_some_of_nonneg problemId isCorrect currentItem now hst
  exact ⟨r, hr⟩

/-- Witness for the amended C4 at a concrete input: an incorrect answer at
stage 0 succeeds. -/
theorem computeNextReview_total_for_nonneg_stage_witness :
    ∃ r, computeNextReview "q1" false (some ⟨"q1", 0, 0⟩) 0 = some r :=
  computeNextReview_total_for_nonneg_stage "q1" false (some ⟨"q1", 0, 0⟩) 0
    (by intro e he; injection he with h; rw [← h])

/-!  ### Session picker (`src/logic/sessionPicker.ts`)  -/

lemma pickLoop_nodup (targetSeconds : Int) :
    ∀ (queue picked : List Problem) (pickedSet : List String) (estimatedTime : Int),
      ((picked.map (·.id)).Nodup) → (∀ q ∈ picked, q.id ∈ pickedSet) →
      ((pickLoop targetSeconds queue picked pickedSet estimatedTime).map (·.id)).Nodup := by
  intro queue
  induction queue with
  | nil => intro picked pickedSet estimatedTime hnd _; exact hnd
  | cons p rest ih =>
    intro picked pickedSet estimatedTime hnd hsub
    unfold pickLoop
    by_cases hmem : p.id ∈ pickedSet
    · rw [if_pos hmem]
      exact ih picked pickedSet estimatedTime hnd hsub
    · rw [if_neg hmem]
      have hnotin : p.id ∉ picked.map (·.id) := by
        intro hin
        obtain ⟨q, hq, hqid⟩ := List.mem_map.mp hin
        exact hmem (hqid ▸ hsub q hq)
      have hnd2 : ((picked ++ [p]).map (·.id)).Nodup := by
        rw [List.map_append]
        simpa using List.Nodup.append hnd (by simp) (by
          intro x hx hx2
          simp only [List.map_cons, List.map_nil, List.mem_singleton] at hx2
          exact hnotin (hx2 ▸ hx))
      by_cases hbudget : targetSeconds ≤ estimatedTime + estimateSolveSeconds p.category
      · rw [if_pos hbudget]
        exact hnd2
      · rw [if_neg hbudget]
        refine ih (picked ++ [p]) (p.id :: pickedSet) _ hnd2 ?_
        intro q hq
        rcases List.mem_append.mp hq with hq | hq
        · exact List.mem_cons_of_mem _ (hsub q hq)
        · simp only [List.mem_singleton] at hq
          rw [hq]
          exact List.mem_cons_self _ _

/-- C5: no question id appears more than once in the output of
`pickQuickSession`, whatever the catalog, attempt map, due list, and target
duration (the first pool containing a question wins). -/
theorem pickQuickSession_nodup :
    ∀ (targetSeconds : Int) (allProblems : List Problem) (latestAttempts : List Attempt)
      (dueReviews : List ReviewQueueItem),
      ((pickQuickSession targetSeconds allProblems latestAttempts dueReviews).map (·.id)).Nodup := by
  intro targetSeconds allProblems latestAttempts dueReviews
  unfold pickQuickSession
  exact pickLoop_nodup targetSeconds _ [] [] 0 (by simp) (by simp)

/-- C2 counterexample: on the spec's own scenario (catalog [A, B, C], A slow
but correct, B wrong, C unseen, due list empty, 60-second target),
`pickQuickSession` does NOT return `[B, A]`: the slow-but-correct pool
(pool 2) is walked before the recently-wrong pool (pool 3). -/
theorem pickQuickSession_scenario_not_BA :
    pickQuickSession 60 c2Problems c2Attempts [] ≠ [probB, probA] := by decide

/-- C2 (amended): on that scenario `pickQuickSession(60, …)` returns exactly
`[A, B]` — A from the slow-but-correct pool first (estimate 55 s < 60 s, so
the walk continues), then B from the recently-wrong pool (55 + 45 = 100 s ≥
60 s, so the walk stops before reaching C). -/
theorem pickQuickSession_scenario_AB :
    pickQuickSession 60 c2Problems c2Attempts [] = [probA, probB] := by decide

/-- C8: `pickSpeedSession` returns exactly the first `maxCount` elements of
the slow-but-correct pool (pool 2) that `pickQuickSession` builds from the
same catalog and attempt map, and `pickQuickSession` is the pool walk over
that very pool. -/
theorem pickSpeedSession_refines_quick :
    ∀ (allProblems : List Problem) (latestAttempts : List Attempt) (maxCount : Nat)
      (targetSeconds : Int) (dueReviews : List ReviewQueueItem),
      pickSpeedSession allProblems latestAttempts maxCount
          = (slowPool allProblems latestAttempts).take maxCount
      ∧ pickQuickSession targetSeconds allProblems latestAttempts dueReviews
          = pickLoop targetSeconds
              (duePool allProblems dueReviews ++ slowPool allProblems latestAttempts
                ++ wrongRecentPool allProblems latestAttempts
                ++ unseenPool allProblems latestAttempts) [] [] 0 :=
  fun _ _ _ _ _ => ⟨rfl, rfl⟩

/-- C7: `pickReviewSession` returns only catalog questions that are
due-for-review or whose latest attempt is incorrect; it returns all of them
whenever they fit in `maxCount`; its output never exceeds `maxCount` items;
and the output is ordered with due-for-review questions first as a group and
by latest-attempt timestamp ascending. -/
theorem pickReviewSession_spec :
    ∀ (allProblems : List Problem) (latestAttempts : List Attempt)
      (dueReviews : List ReviewQueueItem) (maxCount : Nat),
      (∀ p, p ∈ pickReviewSession allProblems latestAttempts dueReviews maxCount →
          p ∈ allProblems ∧ reviewCandidate latestAttempts dueReviews p = true)
      ∧ ((allProblems.filter (reviewCandidate latestAttempts dueReviews)).length ≤ maxCount →
          ∀ p ∈ allProblems, reviewCandidate latestAttempts dueReviews p = true →
            p ∈ pickReviewSession allProblems latestAttempts dueReviews maxCount)
      ∧ (pickReviewSession allProblems latestAttempts dueReviews maxCount).length ≤ maxCount
      ∧ (pickReviewSession allProblems latestAttempts dueReviews maxCount).Pairwise
          (lexAscLE (dueRank dueReviews) (attemptAnsweredAt latestAttempts)) := by
  intro allProblems latestAttempts dueReviews maxCount
  refine ⟨?_, ?_, ?_, ?_⟩
  · intro p hp
    have hp2 : p ∈ List.insertionSort
        (lexAscLE (dueRank dueReviews) (attemptAnsweredAt latestAttempts))
        (allProblems.filter (reviewCandidate latestAttempts dueReviews)) :=
      (List.take_sublist _ _).subset hp
    have hp3 := (List.perm_insertionSort _ _).mem_iff.mp hp2
    exact List.mem_filter.mp hp3
  · intro hlen p hmem hpred
    have hslen : (List.insertionSort
        (lexAscLE (dueRank dueReviews) (attemptAnsweredAt latestAttempts))
        (allProblems.filter (reviewCandidate latestAttempts dueReviews))).length ≤ maxCount := by
      rw [(List.perm_insertionSort _ _).length_eq]
      exact hlen
    unfold pickReviewSession
    rw [List.take_of_length_le hslen]
    exact (List.perm_insertionSort _ _).mem_iff.mpr (List.mem_filter.mpr ⟨hmem, hpred⟩)
  · unfold pickReviewSession
    rw [List.length_take]
    exact min_le_left _ _
  · exact List.Pairwise.sublist (List.take_sublist _ _) (List.sorted_insertionSort _ _)

/-- Witness for C7: on the concrete scenario (B wrong, empty due list), B is a
candidate and indeed appears in the review session. -/
theorem pickReviewSession_spec_witness :
    probB ∈ pickReviewSession c2Problems c2Attempts [] 10 :=
  (pickReviewSession_spec c2Problems c2Attempts [] 10).2.1 (by decide) probB
    (by decide) (by decide)

lemma scoreProblem_problem (latestAttempts : List Attempt) (p : Problem) :
    (scoreProblem latestAttempts p).problem = p := by
  unfold scoreProblem
  cases mapGet latestAttempts p.id <;> rfl

lemma weaknessScore_eq (latestAttempts : List Attempt) (p : Problem) (a : Attempt)
    (h : mapGet latestAttempts p.id = some a) :
    weaknessScore latestAttempts p = (if a.isCorrect then 0 else 10000)
      + max 0 (a.timeMs - targetTimeForCategory p.category * 1000) := by
  unfold weaknessScore scoreProblem
  rw [h]
  have hmax : (if 0 < a.timeMs - targetTimeForCategory p.category * 1000
      then a.timeMs - targetTimeForCategory p.category * 1000 else 0)
      = max 0 (a.timeMs - targetTimeForCategory p.category * 1000) := by
    split <;> omega
  simp only
  rw [hmax]

lemma mem_weakness_sorted (latestAttempts : List Attempt) (allProblems : List Problem)
    (s : ScoredProblem)
    (h : s ∈ List.insertionSort (descLE (fun t => t.score))
        ((allProblems.filter (fun p => mapHas latestAttempts p.id)).map
          (scoreProblem latestAttempts))) :
    s.score = weaknessScore latestAttempts s.problem
      ∧ s.problem ∈ allProblems ∧ mapHas latestAttempts s.problem.id = true := by
  have h2 := (List.perm_insertionSort _ _).mem_iff.mp h
  obtain ⟨q, hq, hsq⟩ := List.mem_map.mp h2
  obtain ⟨hqmem, hqpred⟩ := List.mem_filter.mp hq
  rw [← hsq, scoreProblem_problem]
  exact ⟨rfl, hqmem, hqpred⟩

/-- C6: `pickWeaknessTest` scores only questions with at least one attempt,
each with (×1000-scaled) score `(incorrect ? 10000 : 0) + max 0 (elapsedMs −
targetMs)`; its output is sorted descending by that score; consequently a
question whose latest attempt is incorrect (score ≥ 10000) always precedes a
question answered correctly with less than 10 seconds of overage
(score < 10000). -/
theorem pickWeaknessTest_spec :
    ∀ (allProblems : List Problem) (latestAttempts : List Attempt) (count : Nat),
      (∀ p, p ∈ pickWeaknessTest allProblems latestAttempts count →
          mapHas latestAttempts p.id = true)
      ∧ (∀ (p : Problem) (a : Attempt), mapGet latestAttempts p.id = some a →
          weaknessScore latestAttempts p = (if a.isCorrect then 0 else 10000)
            + max 0 (a.timeMs - targetTimeForCategory p.category * 1000))
      ∧ (pickWeaknessTest allProblems latestAttempts count).Pairwise
          (fun p q => weaknessScore latestAttempts q ≤ weaknessScore latestAttempts p)
      ∧ (∀ i j : Fin (pickWeaknessTest allProblems latestAttempts count).length,
          (∃ a, mapGet latestAttempts
              ((pickWeaknessTest allProblems latestAttempts count).get i).id = some a ∧
            a.isCorrect = false) →
          (∃ a, mapGet latestAttempts
              ((pickWeaknessTest allProblems latestAttempts count).get j).id = some a ∧
            a.isCorrect = true ∧
            a.timeMs - targetTimeForCategory
              ((pickWeaknessTest allProblems latestAttempts count).get j).category * 1000
              < 10000) →
          (i : Nat) < (j : Nat)) := by
  intro allProblems latestAttempts count
  have hmem : ∀ p, p ∈ pickWeaknessTest allProblems latestAttempts count →
      mapHas latestAttempts p.id = true := by
    intro p hp
    obtain ⟨s, hs, hsp⟩ := List.mem_map.mp hp
    have hs2 := (List.take_sublist _ _).subset hs
    obtain ⟨-, -, hhas⟩ := mem_weakness_sorted latestAttempts allProblems s hs2
    rw [← hsp]
    exact hhas
  have hpair : (pickWeaknessTest allProblems latestAttempts count).Pairwise
      (fun p q => weaknessScore latestAttempts q ≤ weaknessScore latestAttempts p) := by
    unfold pickWeaknessTest
    rw [List.pairwise_map]
    have hsorted : (List.insertionSort (descLE (fun s => s.score))
        ((allProblems.filter (fun p => mapHas latestAttempts p.id)).map
          (scoreProblem latestAttempts))).Pairwise (descLE (fun s => s.score)) :=
      List.sorted_insertionSort _ _
    have htake := List.Pairwise.sublist (List.take_sublist count _) hsorted
    refine htake.imp_of_mem ?_
    intro s t hsmem htmem hst
    have hs := mem_weakness_sorted latestAttempts allProblems s
      ((List.take_sublist _ _).subset hsmem)
    have ht := mem_weakness_sorted latestAttempts allProblems t
      ((List.take_sublist _ _).subset htmem)
    rw [← hs.1, ← ht.1]
    exact hst
  refine ⟨hmem, ?_, hpair, ?_⟩
  · intro p a h
    exact weaknessScore_eq latestAttempts p a h
  · intro i j hi hj
    obtain ⟨ai, hai, hai2⟩ := hi
    obtain ⟨aj, haj, haj2, haj3⟩ := hj
    have hwi : 10000 ≤ weaknessScore latestAttempts
        ((pickWeaknessTest allProblems latestAttempts count).get i) := by
      rw [weaknessScore_eq latestAttempts _ ai hai, hai2]
      simp only [Bool.false_eq_true, if_false]
      omega
    have hwj : weaknessScore latestAttempts
        ((pickWeaknessTest allProblems latestAttempts count).get j) < 10000 := by
      rw [weaknessScore_eq latestAttempts _ aj haj, haj2]
      simp only [if_true]
      omega
    by_contra hij
    push_neg at hij
    rcases Nat.lt_or_ge (j : Nat) (i : Nat) with hlt | hge
    · have := (List.pairwise_iff_get.mp hpair) j i hlt
      omega
    · have heq : i = j := Fin.ext (le_antisymm hge hij)
      rw [heq] at hai
      rw [hai] at haj
      injection haj with haij
      rw [← haij] at haj2
      rw [hai2] at haj2
      cases haj2

/-- Witness for C6 at a concrete input: with A wrong and B correct but 5 s
slow, the weakness test output is [A, B] — the wrong question strictly
precedes the slightly-slow one (index 0 < index 1). -/
theorem pickWeaknessTest_spec_witness :
    ((0 : Nat) < (1 : Nat))
    ∧ weaknessScore c6Attempts probB
        = (if true then 0 else 10000) + max 0 ((50000 : Int) - targetTimeForCategory Category.bar * 1000) :=
  ⟨(pickWeaknessTest_spec [probA, probB] c6Attempts 20).2.2.2
      ⟨0, by decide⟩ ⟨1, by decide⟩
      ⟨{ problemId := "A", answeredAt := 100, isCorrect := false, timeMs := 30000 },
        by decide, by decide⟩
      ⟨{ problemId := "B", answeredAt := 200, isCorrect := true, timeMs := 50000 },
        by decide, by decide, by decide⟩,
   (pickWeaknessTest_spec [probA, probB] c6Attempts 20).2.1 probB
      { problemId := "B", answeredAt := 200, isCorrect := true, timeMs := 50000 }
      (by decide)⟩

/-- C9: `generateRecommendations` emits a review-drill card iff the number of
`dueReviews` entries due at the current time (re-checked live against `now`,
not the mere length of the list) is positive; that unique card proposes
`min(dueCount, 5)` questions with estimated minutes `ceil(dueCount * 50 / 60)`
— and `mathCeilDiv` is indeed that ceiling: the least number of whole minutes
covering `dueCount` questions at 50 seconds each. -/
theorem generateRecommendations_review_card :
    ∀ (allProblems : List Problem) (latestAttempts : List Attempt)
      (dueReviews : List ReviewQueueItem) (now : Int),
      ((generateRecommendations allProblems latestAttempts dueReviews now).filter
          (fun c => c.type == RecType.review)
        = if 0 < dueCount dueReviews now then
            [{ title := s!"復習ドリル {min (dueCount dueReviews now) 5}問",
               reason := s!"{dueCount dueReviews now}問が復習期限です",
               type := RecType.review,
               estimatedMinutes := mathCeilDiv ((dueCount dueReviews now : Int) * 50) 60,
               category := none }]
          else [])
      ∧ (∀ n : Nat, (n : Int) * 50 ≤ 60 * mathCeilDiv ((n : Int) * 50) 60
          ∧ 60 * mathCeilDiv ((n : Int) * 50) 60 < (n : Int) * 50 + 60) := by
  intro allProblems latestAttempts dueReviews now
  constructor
  · unfold generateRecommendations
    rw [List.filter_append, List.filter_append]
    have h2 : (speedCards allProblems latestAttempts).filter
        (fun c => c.type == RecType.review) = [] := by
      unfold speedCards
      split
      · rfl
      · rfl
    have h3 : (categoryCards allProblems latestAttempts).filter
        (fun c => c.type == RecType.review) = [] := by
      unfold categoryCards
      split
      · split
        · rfl
        · rfl
      · rfl
    rw [h2, h3, List.append_nil, List.append_nil]
    unfold reviewCards
    split
    · rfl
    · rfl
  · intro n
    unfold mathCeilDiv
    constructor <;> omega

/-- C10: for every value of the closed `Category` type the lookup hits the
catalog constant — table 55 s, bar 45 s, pie 40 s, composite 55 s —
`estimateSolveSeconds` agrees with `targetTimeForCategory`, and `CATEGORY_MAP`
is total, so the 50-second fallback is never taken. -/
theorem targetTimeForCategory_spec :
    targetTimeForCategory Category.table = 55
    ∧ targetTimeForCategory Category.bar = 45
    ∧ targetTimeForCategory Category.pie = 40
    ∧ targetTimeForCategory Category.composite = 55
    ∧ (∀ c : Category, estimateSolveSeconds c = targetTimeForCategory c
        ∧ (CATEGORY_MAP c).isSome = true) := by
  refine ⟨rfl, rfl, rfl, rfl, ?_⟩
  intro c
  cases c <;> exact ⟨rfl, rfl⟩
